import Mathlib

/-!
Shallow embedding of `src/main.rs` (codejam_xi): a per-request best-first
search over a load graph.

Modelling conventions:
* `f64` values flowing through the search (money, distances, costs) are
  modelled as `ℚ`: every finite `f64` is a rational, and no `NaN` arises in
  the arithmetic the claims are about.  Float literals are taken at face
  value (`0.40` becomes `2/5`).
* `NaiveDateTime` is modelled as `ℤ` (seconds since the epoch);
  `chrono::Duration::seconds n` is addition of `n`.
* `OrderedFloat<f64>` coordinate pairs become `ℚ × ℚ` with decidable
  equality.
* The `f64 as i64` cast truncates toward zero (`f64ToI64`).
* The haversine function `get_geodesic_distance` is modelled over `ℝ`
  with real `sin`/`cos`/`sqrt`/`atan2`, the usual idealisation of the
  `f64` transcendentals.
* Rust's `BinaryHeap` is a max-heap: the element popped first is maximal
  for `Ord::cmp`.  The search loop is given explicit fuel, returning
  `none` when the fuel runs out before the frontier empties and
  `some (popped, closed)` when the loop exits with an empty frontier;
  `popped` is instrumentation recording the expanded nodes in order.
* The stray fragment `if (edge_cost)` in `main` (line 203) has no
  condition body; the embedding models the complete statement that
  follows it.
-/

namespace Codejam

/-- Coordinates: `(OrderedFloat<f64>, OrderedFloat<f64>)`. -/
abbrev Coord : Type := ℚ × ℚ

/-- `const MILES_TRAVELLED_PER_HOUR: i32 = 55`. -/
def MILES_TRAVELLED_PER_HOUR : ℤ := 55

/-- `const FUEL_COST_PER_MILE: f64 = 0.40`. -/
def FUEL_COST_PER_MILE : ℚ := 0.40

/-- `f64::MIN`, the most negative finite double: `-(2^1024 - 2^971)`. -/
def F64_MIN : ℚ := -((2 : ℚ) ^ 1024 - (2 : ℚ) ^ 971)

/-- `chrono::naive::MAX_DATETIME` (year 262143), modelled as its epoch
second count; no claim depends on the exact value. -/
def MAX_DATETIME : ℤ := 8210298412799

/-- Rust's `as i64` cast on a (finite, in-range) `f64`: truncation toward
zero. -/
def f64ToI64 (q : ℚ) : ℤ := if 0 ≤ q then ⌊q⌋ else -⌊-q⌋

/-- `struct Node` from `main.rs`. -/
structure Node where
  location : Coord
  parent : Option Coord
  time : ℤ
  money_earned : ℚ
  distance_covered : ℚ
  h : ℚ
  deriving DecidableEq

/-- `Node::new`: fresh node at `location` with no parent, time
`MAX_DATETIME`, zero earnings and distance, and `h = f64::MIN`. -/
def Node.new (location : Coord) : Node :=
  { location := location
    parent := none
    time := MAX_DATETIME
    money_earned := 0
    distance_covered := 0
    h := F64_MIN }

/-- `f64::partial_cmp` on two non-NaN doubles (total on `ℚ`). -/
def cmpQ (a b : ℚ) : Ordering :=
  if a < b then .lt else if a = b then .eq else .gt

/-- `PartialOrd for Node`: `self.money_earned.partial_cmp(&other.money_earned)`.
On `ℚ` (no NaN) this is always `some`. -/
def Node.pcmp (a b : Node) : Option Ordering :=
  some (cmpQ a.money_earned b.money_earned)

/-- `Ord for Node`:
`self.partial_cmp(&other).unwrap_or_else(|| self.time.cmp(&other.time))`. -/
def Node.cmp (a b : Node) : Ordering :=
  (Node.pcmp a b).getD (compare a.time b.time)

/-- `PartialEq for Node`: equal `time` and equal `money_earned`. -/
def Node.rustEq (a b : Node) : Prop :=
  a.time = b.time ∧ a.money_earned = b.money_earned

/-- `struct Edge` from `main.rs`.  `distance` holds the `f64` value
`get_geodesic_distance` produced for this load; `amount` is the payout
(`i32`); note the struct stores no load identifier. -/
structure Edge where
  distance : ℚ
  amount : ℤ
  destination : Coord
  deriving DecidableEq

/-- The `neighbors` hash map: adjacency from origin coordinate to
outgoing edges (association list model of `HashMap`). -/
abbrev AdjMap : Type := List (Coord × List Edge)

/-- `neighbors.get(&c)` followed by `.unwrap_or(&vec![])`. -/
def edgesOf (g : AdjMap) (c : Coord) : List Edge :=
  match g.find? (fun kv => decide (kv.1 = c)) with
  | some kv => kv.2
  | none => []

/-- `struct Input`: one trip request. -/
structure Input where
  input_trip_id : ℤ
  start_latitude : ℚ
  start_longitude : ℚ
  start_time : ℤ
  max_destination_time : ℤ
  deriving DecidableEq

/-- `struct Output` (declared in `main.rs`; never constructed by `main`). -/
structure Output where
  input_trip_id : ℤ
  load_ids : List ℤ
  deriving DecidableEq

/-- The start node of a request: `Node::new((start_latitude,
start_longitude))` with `time` overwritten by `request.start_time`. -/
def startNode (req : Input) : Node :=
  { Node.new (req.start_latitude, req.start_longitude) with
      time := req.start_time }

/-- `edge_cost` as computed in the loop body:
`(money_earned + amount) - (distance_covered + distance) * FUEL_COST_PER_MILE`. -/
def edgeCost (cur : Node) (e : Edge) : ℚ :=
  (cur.money_earned + (e.amount : ℚ)) -
    (cur.distance_covered + e.distance) * FUEL_COST_PER_MILE

/-- The candidate `neighbor_node` built for an edge.  The Rust struct
update `..current_node` fills every unlisted field — in particular
`location` — from `current_node`. -/
def successor (cur : Node) (e : Edge) : Node :=
  { cur with
      parent := some cur.location
      time := cur.time +
        f64ToI64 (e.distance / (MILES_TRAVELLED_PER_HOUR : ℚ) * 3600)
      money_earned := cur.money_earned + (e.amount : ℚ)
      distance_covered := cur.distance_covered + e.distance
      h := edgeCost cur e }

/-- Processing of a single edge in the expansion loop: the candidate is
pushed exactly when the destination is not in `closed`, `edge_cost`
exceeds the candidate's own `h`, and its arrival time is strictly before
the request deadline. -/
def expandEdge (cur : Node) (dl : ℤ) (closed : List Coord) (e : Edge) :
    Option Node :=
  let edge_cost := edgeCost cur e
  let neighbor_node := successor cur e
  if e.destination ∉ closed ∧ neighbor_node.h < edge_cost then
    if neighbor_node.time < dl then some neighbor_node else none
  else none

/-- All nodes pushed while expanding `cur`. -/
def expand (cur : Node) (edges : List Edge) (closed : List Coord)
    (dl : ℤ) : List Node :=
  edges.filterMap (expandEdge cur dl closed)

/-- Extract a maximal element (w.r.t. `Node.cmp`) from the frontier,
modelling `BinaryHeap::pop`. -/
def popMax : List Node → Option (Node × List Node)
  | [] => none
  | n :: ns =>
    match popMax ns with
    | none => some (n, [])
    | some (m, rest) =>
      if Node.cmp n m = .lt then some (m, n :: rest) else some (n, ns)

/-- The `while let Some(current_node) = open.pop()` loop.  `closed` is
threaded through unchanged because the source never inserts into it.
`popped` records the expanded nodes (instrumentation).  Returns `none` if
the fuel runs out, `some (popped, closed)` when the frontier empties. -/
def searchLoop (g : AdjMap) (dl : ℤ) :
    Nat → List Node → List Coord → List Node →
    Option (List Node × List Coord)
  | 0, _, _, _ => none
  | fuel + 1, frontier, closed, popped =>
    match popMax frontier with
    | none => some (popped, closed)
    | some (cur, rest) =>
      searchLoop g dl fuel
        (rest ++ expand cur (edgesOf g cur.location) closed dl)
        closed (popped ++ [cur])

/-- One iteration of the outer `for request in input` loop: run the
search for a request from its start node with empty open/closed sets.
`main` does nothing further with the search state. -/
def runRequest (g : AdjMap) (req : Input) (fuel : Nat) :
    Option (List Node × List Coord) :=
  searchLoop g req.max_destination_time fuel [startNode req] [] []

/-! ### The haversine distance, over `ℝ` -/

/-- `const RADIUS_OF_EARTH: i32 = 6371000; // metres` -/
noncomputable def RADIUS_OF_EARTH : ℝ := 6371000

/-- `const DEGREES_TO_RADIANS: f64 = std::f64::consts::PI / 180.` -/
noncomputable def DEGREES_TO_RADIANS : ℝ := Real.pi / 180

/-- `const METRES_TO_MILES: f64 = 1. / 1609.344` -/
noncomputable def METRES_TO_MILES : ℝ := 1 / 1609.344

/-- `f64::atan2(self, other)` = `atan2(y, x)`, the signed angle of the
point `(x, y)`, in its standard piecewise definition. -/
noncomputable def atan2 (y x : ℝ) : ℝ :=
  if 0 < x then Real.arctan (y / x)
  else if x < 0 ∧ 0 ≤ y then Real.arctan (y / x) + Real.pi
  else if x < 0 ∧ y < 0 then Real.arctan (y / x) - Real.pi
  else if x = 0 ∧ 0 < y then Real.pi / 2
  else if x = 0 ∧ y < 0 then -(Real.pi / 2)
  else 0

/-- `get_geodesic_distance(start, end)`: haversine great-circle distance
in miles.  The Rust local names map as `theta_1`, `theta_2`,
`delta_theta`, `delta_lambda`, `a`, `c`, in order; `.0`/`.1` become
`.1`/`.2`.  (The Rust parameter `end` is a Lean keyword, hence
`finish`.) -/
noncomputable def get_geodesic_distance (start finish : ℝ × ℝ) : ℝ :=
  let theta_1 := start.1 * DEGREES_TO_RADIANS
  let theta_2 := finish.1 * DEGREES_TO_RADIANS
  let delta_theta := (finish.1 - start.1) * DEGREES_TO_RADIANS
  let delta_lambda := (finish.2 - start.2) * DEGREES_TO_RADIANS
  let a := Real.sin (delta_theta / 2) ^ 2 +
    Real.cos theta_1 * Real.cos theta_2 * Real.sin (delta_lambda / 2) ^ 2
  let c := 2 * atan2 (Real.sqrt a) (Real.sqrt (1 - a))
  RADIUS_OF_EARTH * c * METRES_TO_MILES

/-! ### Concrete instances used by witnesses and counterexamples -/

/-- A concrete current node: at the origin, epoch time 0, nothing earned. -/
def curNode : Node :=
  { location := (0, 0), parent := none, time := 0,
    money_earned := 0, distance_covered := 0, h := 0 }

/-- A degenerate load: origin and destination coincide (haversine 0) and
the payout is negative. -/
def zeroEdge : Edge := { distance := 0, amount := -1, destination := (0, 0) }

/-- An ordinary load: 1 mile, payout 10, destination `(1, 1)`. -/
def mileEdge : Edge := { distance := 1, amount := 10, destination := (1, 1) }

/-- A graph with a single outgoing edge at the origin `(0, 0)`. -/
def graphAtOrigin : AdjMap := [((0, 0), [mileEdge])]

/-- A graph whose only key is `(1, 1)`. -/
def graphElsewhere : AdjMap := [((1, 1), [mileEdge])]

/-- A request starting at `(0, 0)` at time 0 with a distant deadline. -/
def reqOrigin : Input :=
  { input_trip_id := 1, start_latitude := 0, start_longitude := 0,
    start_time := 0, max_destination_time := 1000000 }

/-- Two nodes with exactly equal earnings and different arrival times. -/
def nodeEarly : Node :=
  { location := (0, 0), parent := none, time := 0,
    money_earned := 5, distance_covered := 0, h := 0 }

/-- See `nodeEarly`: same earnings, later arrival. -/
def nodeLate : Node :=
  { location := (0, 0), parent := none, time := 10,
    money_earned := 5, distance_covered := 0, h := 0 }

/-! ### Basic lemmas about the expansion step -/

/-- The push guard compares `edge_cost` with the candidate's `h`, but the
candidate was just built with `h := edge_cost`, so the strict comparison
fails and no edge ever yields a pushed node. -/
lemma expandEdge_eq_none (cur : Node) (dl : ℤ) (closed : List Coord)
    (e : Edge) : expandEdge cur dl closed e = none := by
  unfold expandEdge
  simp only [successor]
  rw [if_neg]
  rintro ⟨-, hlt⟩
  exact lt_irrefl _ hlt

/-- Expanding any node pushes nothing onto the frontier. -/
lemma expand_eq_nil (cur : Node) (edges : List Edge) (closed : List Coord)
    (dl : ℤ) : expand cur edges closed dl = [] := by
  simp [expand, expandEdge_eq_none]

/-- With fuel 2 a singleton frontier is fully processed: the node is
popped and expanded (to nothing), and the loop then exits on the empty
frontier, leaving `closed` untouched. -/
lemma searchLoop_singleton (g : AdjMap) (dl : ℤ) (n : Node)
    (closed : List Coord) (popped : List Node) :
    searchLoop g dl 2 [n] closed popped = some (popped ++ [n], closed) := by
  simp [searchLoop, popMax, expand_eq_nil]

/-! ### Claim theorems -/

/-- Claim C1 (code bug): the spec says a popped node's coordinate is
added to the closed set after its edges are examined, but `main` never
inserts into `closed`.  Concretely: the start node at `(0, 0)` is popped
and its nonempty edge list examined, yet the final closed set is `[]`
rather than containing `(0, 0)`. -/
theorem closed_set_never_populated :
    edgesOf graphAtOrigin (startNode reqOrigin).location = [mileEdge] ∧
    runRequest graphAtOrigin reqOrigin 2 =
      some ([startNode reqOrigin], []) := by
  refine ⟨by decide, ?_⟩
  have h := searchLoop_singleton graphAtOrigin
    reqOrigin.max_destination_time (startNode reqOrigin) [] []
  simpa [runRequest] using h

/-- Claim C2: for every trip request the search pops only the start node
and stops, because each candidate is enqueued only if `edge_cost`
strictly exceeds its own `h`, which was just set to `edge_cost` — so no
successor is ever pushed onto the frontier. -/
theorem search_pops_only_start (g : AdjMap) (req : Input) :
    (∀ cur closed e,
      expandEdge cur req.max_destination_time closed e = none) ∧
    runRequest g req 2 = some ([startNode req], []) := by
  refine ⟨fun cur closed e => expandEdge_eq_none cur _ closed e, ?_⟩
  have h := searchLoop_singleton g req.max_destination_time
    (startNode req) [] []
  simpa [runRequest] using h

/-- Claim C3, counterexample: two nodes with exactly equal earnings and
different arrival times compare `Equal` — the earlier node is not
greater, so it is not preferentially popped first, contradicting the
claimed tie-break. -/
theorem cmp_equal_money_no_tiebreak :
    nodeEarly.money_earned = nodeLate.money_earned ∧
    nodeEarly.time < nodeLate.time ∧
    Node.cmp nodeEarly nodeLate = Ordering.eq ∧
    Node.cmp nodeEarly nodeLate ≠ Ordering.gt := by decide

/-- Claim C3, amended: `Node.cmp` is exactly the comparison of
`money_earned` (the `partial_cmp` result, always defined absent NaN);
exactly equal earnings yield `Ordering.eq` with no arrival-time
tie-break — the time fallback runs only when the float comparison is
undefined. -/
theorem cmp_is_money_comparison (a b : Node) :
    Node.cmp a b = cmpQ a.money_earned b.money_earned ∧
    (a.money_earned = b.money_earned →
      Node.cmp a b = Ordering.eq) := by
  refine ⟨rfl, fun h => ?_⟩
  simp [Node.cmp, Node.pcmp, cmpQ, h]

/-- Witness for `cmp_is_money_comparison` at two concrete nodes. -/
theorem cmp_is_money_comparison_witness :
    Node.cmp nodeEarly nodeLate =
      cmpQ nodeEarly.money_earned nodeLate.money_earned ∧
    Node.cmp nodeEarly nodeLate = Ordering.eq :=
  ⟨(cmp_is_money_comparison nodeEarly nodeLate).1,
   (cmp_is_money_comparison nodeEarly nodeLate).2 (by decide)⟩

/-- Claim C4 (code bug): a candidate whose destination is not in the
closed set and whose arrival time is strictly before the deadline is
still not enqueued, because the guard additionally requires
`edge_cost > neighbor_node.h`, which never holds (`h` was just set to
`edge_cost`). -/
theorem viable_candidate_not_enqueued :
    mileEdge.destination ∉ ([] : List Coord) ∧
    (successor curNode mileEdge).time < reqOrigin.max_destination_time ∧
    expand curNode [mileEdge] [] reqOrigin.max_destination_time = [] := by
  refine ⟨by simp, ?_, expand_eq_nil _ _ _ _⟩
  have hq : (0 : ℚ) ≤ mileEdge.distance / (MILES_TRAVELLED_PER_HOUR : ℚ) * 3600 := by
    norm_num [mileEdge, MILES_TRAVELLED_PER_HOUR]
  have hfl : (⌊mileEdge.distance / (MILES_TRAVELLED_PER_HOUR : ℚ) * 3600⌋ : ℤ) = 65 := by
    rw [Int.floor_eq_iff]
    norm_num [mileEdge, MILES_TRAVELLED_PER_HOUR]
  show curNode.time + f64ToI64 _ < reqOrigin.max_destination_time
  rw [f64ToI64, if_pos hq, hfl]
  norm_num [curNode, reqOrigin]

/-- Claim C5: the candidate successor carries
`money_earned = current.money_earned + payout`,
`distance_covered = current.distance_covered + distance`,
`parent = current.location`, cached score
`h = (money + payout) - (distance_covered + distance) * 0.40`, and (for
the nonnegative distances haversine produces)
`arrival_time = current.arrival_time + ⌊distance / 55 mph in seconds⌋`. -/
theorem successor_fields (cur : Node) (e : Edge) :
    (successor cur e).money_earned = cur.money_earned + (e.amount : ℚ) ∧
    (successor cur e).distance_covered = cur.distance_covered + e.distance ∧
    (successor cur e).parent = some cur.location ∧
    (successor cur e).h =
      (cur.money_earned + (e.amount : ℚ)) -
        (cur.distance_covered + e.distance) * (0.40 : ℚ) ∧
    (0 ≤ e.distance →
      (successor cur e).time = cur.time + ⌊e.distance / 55 * 3600⌋) := by
  refine ⟨rfl, rfl, rfl, rfl, fun hd => ?_⟩
  show cur.time + f64ToI64 (e.distance / (MILES_TRAVELLED_PER_HOUR : ℚ) * 3600) = _
  have hq : (0 : ℚ) ≤ e.distance / (MILES_TRAVELLED_PER_HOUR : ℚ) * 3600 := by
    have : (0 : ℚ) ≤ e.distance / (MILES_TRAVELLED_PER_HOUR : ℚ) :=
      div_nonneg hd (by norm_num [MILES_TRAVELLED_PER_HOUR])
    positivity
  rw [f64ToI64, if_pos hq]
  norm_num [MILES_TRAVELLED_PER_HOUR]

/-- Witness for `successor_fields`: the arrival-time clause at a
concrete node and edge. -/
theorem successor_fields_witness :
    (successor curNode mileEdge).time =
      curNode.time + ⌊mileEdge.distance / 55 * 3600⌋ :=
  (successor_fields curNode mileEdge).2.2.2.2 (by decide)

/-- Claim C6, counterexample: an edge whose payout is negative and whose
distance is zero (origin and destination coincide, a haversine distance
of 0) gives a traversal step on which `money_earned` strictly decreases
and `arrival_time` does not strictly increase. -/
theorem monotonicity_counterexample :
    (successor curNode zeroEdge).money_earned < curNode.money_earned ∧
    ¬ curNode.time < (successor curNode zeroEdge).time := by
  constructor
  · show curNode.money_earned + ((-1 : ℤ) : ℚ) < curNode.money_earned
    norm_num
  · show ¬ curNode.time < curNode.time +
      f64ToI64 ((0 : ℚ) / (MILES_TRAVELLED_PER_HOUR : ℚ) * 3600)
    norm_num [f64ToI64]

/-- Claim C6, amended: along a traversal step, `money_earned` is
non-decreasing whenever the edge payout is nonnegative;
`distance_covered` and `arrival_time` are non-decreasing whenever the
edge distance is nonnegative (as haversine guarantees); and
`arrival_time` strictly increases exactly when the travel time rounds
down to at least one whole second, i.e. when the distance is at least
55/3600 of a mile. -/
theorem successor_monotone (cur : Node) (e : Edge) :
    (0 ≤ e.amount → cur.money_earned ≤ (successor cur e).money_earned) ∧
    (0 ≤ e.distance →
      cur.distance_covered ≤ (successor cur e).distance_covered ∧
      cur.time ≤ (successor cur e).time) ∧
    ((55 : ℚ) / 3600 ≤ e.distance → cur.time < (successor cur e).time) := by
  refine ⟨fun ha => ?_, fun hd => ⟨?_, ?_⟩, fun hd => ?_⟩
  · show cur.money_earned ≤ cur.money_earned + (e.amount : ℚ)
    have : (0 : ℚ) ≤ (e.amount : ℚ) := by exact_mod_cast ha
    linarith
  · show cur.distance_covered ≤ cur.distance_covered + e.distance
    linarith
  · show cur.time ≤ cur.time +
      f64ToI64 (e.distance / (MILES_TRAVELLED_PER_HOUR : ℚ) * 3600)
    have hq : (0 : ℚ) ≤ e.distance / (MILES_TRAVELLED_PER_HOUR : ℚ) * 3600 := by
      have : (0 : ℚ) ≤ e.distance / (MILES_TRAVELLED_PER_HOUR : ℚ) :=
        div_nonneg hd (by norm_num [MILES_TRAVELLED_PER_HOUR])
      positivity
    rw [f64ToI64, if_pos hq]
    have : (0 : ℤ) ≤ ⌊e.distance / (MILES_TRAVELLED_PER_HOUR : ℚ) * 3600⌋ :=
      Int.floor_nonneg.mpr hq
    linarith
  · show cur.time < cur.time +
      f64ToI64 (e.distance / (MILES_TRAVELLED_PER_HOUR : ℚ) * 3600)
    have hq1 : (1 : ℚ) ≤ e.distance / (MILES_TRAVELLED_PER_HOUR : ℚ) * 3600 := by
      rw [show ((MILES_TRAVELLED_PER_HOUR : ℤ) : ℚ) = 55 by
        norm_num [MILES_TRAVELLED_PER_HOUR]]
      rw [div_mul_eq_mul_div, le_div_iff₀ (by norm_num)]
      linarith
    have hq : (0 : ℚ) ≤ e.distance / (MILES_TRAVELLED_PER_HOUR : ℚ) * 3600 := by
      linarith
    rw [f64ToI64, if_pos hq]
    have : (1 : ℤ) ≤ ⌊e.distance / (MILES_TRAVELLED_PER_HOUR : ℚ) * 3600⌋ := by
      have := Int.floor_le_floor (α := ℚ) hq1
      simpa using this
    linarith

/-- Witness for `successor_monotone`: a 1-mile edge with payout 10. -/
theorem successor_monotone_witness :
    curNode.money_earned ≤ (successor curNode mileEdge).money_earned ∧
    curNode.time < (successor curNode mileEdge).time :=
  ⟨(successor_monotone curNode mileEdge).1 (by decide),
   (successor_monotone curNode mileEdge).2.2 (by norm_num [mileEdge])⟩

/-- Claim C7: a request whose start coordinate matches no key of the
adjacency map gets the empty edge list (`get` returns `None`, replaced
by `unwrap_or(&vec![])` — no panic), so the expansion yields zero
successors and the search ends normally having popped only the start
node. -/
theorem absent_origin_dead_end (g : AdjMap) (req : Input)
    (h : ∀ kv ∈ g, kv.1 ≠ (startNode req).location) :
    edgesOf g (startNode req).location = [] ∧
    runRequest g req 2 = some ([startNode req], []) := by
  constructor
  · unfold edgesOf
    have hf : g.find?
        (fun kv => decide (kv.1 = (startNode req).location)) = none := by
      rw [List.find?_eq_none]
      intro kv hkv
      simpa using h kv hkv
    rw [hf]
  · have hs := searchLoop_singleton g req.max_destination_time
      (startNode req) [] []
    simpa [runRequest] using hs

/-- Witness for `absent_origin_dead_end`: a request at `(0, 0)` against
a graph whose only key is `(1, 1)`. -/
theorem absent_origin_dead_end_witness :
    edgesOf graphElsewhere (startNode reqOrigin).location = [] ∧
    runRequest graphElsewhere reqOrigin 2 =
      some ([startNode reqOrigin], []) :=
  absent_origin_dead_end graphElsewhere reqOrigin (by decide)

/-- Claim C8: the haversine great-circle distance is symmetric in its
two coordinate arguments. -/
theorem get_geodesic_distance_symm (p q : ℝ × ℝ) :
    get_geodesic_distance p q = get_geodesic_distance q p := by
  have hsin : ∀ x y : ℝ,
      Real.sin ((x - y) * DEGREES_TO_RADIANS / 2) ^ 2 =
        Real.sin ((y - x) * DEGREES_TO_RADIANS / 2) ^ 2 := by
    intro x y
    have hx : (x - y) * DEGREES_TO_RADIANS / 2 =
        -((y - x) * DEGREES_TO_RADIANS / 2) := by ring
    rw [hx, Real.sin_neg, neg_sq]
  simp only [get_geodesic_distance]
  rw [hsin q.1 p.1, hsin q.2 p.2,
    mul_comm (Real.cos (p.1 * DEGREES_TO_RADIANS))
      (Real.cos (q.1 * DEGREES_TO_RADIANS))]

/-- Claim C9: every per-request search terminates — with enough fuel the
loop returns having emptied its frontier (here fuel 2 suffices for every
graph and request, since nothing is ever pushed past the start node). -/
theorem search_terminates (g : AdjMap) (req : Input) :
    ∃ fuel result, runRequest g req fuel = some result := by
  refine ⟨2, ([startNode req], []), ?_⟩
  have hs := searchLoop_singleton g req.max_destination_time
    (startNode req) [] []
  simpa [runRequest] using hs

/-- Claim C10 (code bug): the spec describes parent-link path
reconstruction producing one Result per request, but `main` discards the
search state: for every graph and request the search ends holding only
the parentless start node and an empty closed set, and no `Output` value
is ever constructed (the `Edge` struct does not even record a load
identifier to collect). -/
theorem no_output_produced (g : AdjMap) (req : Input) :
    runRequest g req 2 = some ([startNode req], []) ∧
    (startNode req).parent = none := by
  refine ⟨?_, rfl⟩
  have hs := searchLoop_singleton g req.max_destination_time
    (startNode req) [] []
  simpa [runRequest] using hs

end Codejam
